/-
Verification of the fontFeatures FEE-compiler specification against the
source code (fontFeatures/feeLib/__init__.py, fontFeatures/feeLib/ClassDefinition.py,
fontFeatures/xmlLib/Routine.py), as a shallow embedding in Lean 4.
-/
import Mathlib

set_option linter.unusedVariables false

namespace FeeLib

/-! ## Font model (external read-only collaborator)

The font model offers the queries the core uses: the exported glyph order
(`font.exportedGlyphs()`), the full glyph order (`font.glyphOrder`), the
codepoint-to-glyph lookup (`font.glyphForCodepoint(cp, fallback=False)`),
and per-glyph metrics (`get_glyph_metrics(font, glyph)`, a mapping from
metric name to value). -/

structure FontModel where
  exportedGlyphs : List String
  glyphOrder : List String
  glyphForCodepoint : Nat → Option String
  metrics : String → String → Int

/-! ## Glyph selectors (fontFeatures/feeLib/__init__.py)

`GlyphSelector.__init__` stores a selector dict with exactly one key among
`barename`, `classname`, `regex`, `unicodeglyph`, `unicoderange`,
`inlineclass`, plus a list of suffix dicts and a source location
`(token.line, token.column)`.  A compiled regular expression is embedded as
the Boolean matching function `re.search(pattern, ·)` it denotes. -/

abbrev Loc := Nat × Nat

structure Suffix where
  suffixtype : String
  suffix : String

inductive SelBase where
  | barename (name : String)
  | classname (name : String)
  | regex (pat : String → Bool)
  | unicodeglyph (cp : Nat)
  | unicoderange (lo hi : Nat)
  | inlineclass (members : List SelBase)

structure GlyphSelector where
  selector : SelBase
  suffixes : List Suffix
  location : Loc

/-! ## Python list/set values

`DefineClass.resolve_definition` returns a Python `list` in the `or`/`and`
branches and a Python `set` in the `subtract` branch; the named-class table
therefore stores either kind of value.  A Python `set`'s iteration order is
arbitrary; `list(s)` is modelled deterministically as the lexicographically
sorted enumeration, which the spec permits ("order not significant in the
result" for algebraic combinations). -/

inductive PyGlyphs where
  | pylist (l : List String)
  | pyset (s : Finset String)
  deriving DecidableEq

def PyGlyphs.toFinset : PyGlyphs → Finset String
  | .pylist l => l.toFinset
  | .pyset s => s

def PyGlyphs.toList : PyGlyphs → List String
  | .pylist l => l
  | .pyset s => s.sort (· ≤ ·)

/-- Returns `True` when the held value is a Python sequence (`list` or `tuple`),
`False` when it is an unordered `set`. -/
def PyGlyphs.isSequence : PyGlyphs → Bool
  | .pylist _ => true
  | .pyset _ => false

/-- The named-class table `fontfeatures.namedClasses`, an insert-or-replace
mapping from class name (as stored) to the value assigned. -/
abbrev NamedClasses := List (String × PyGlyphs)

def NamedClasses.lookup (t : NamedClasses) (c : String) : Option PyGlyphs :=
  match t with
  | [] => none
  | (k, v) :: rest => if k = c then some v else NamedClasses.lookup rest c

/-- Python dict assignment `namedClasses[classname] = glyphs`. -/
def NamedClasses.set (t : NamedClasses) (c : String) (v : PyGlyphs) : NamedClasses :=
  match t with
  | [] => [(c, v)]
  | (k, w) :: rest => if k = c then (c, v) :: rest else (k, w) :: NamedClasses.set rest c v

/-! ## GlyphSelector.resolve -/

/-- Errors raised (as Python `ValueError`) during selector resolution. -/
inductive ResolveErr where
  | noGlyphForCodepoint (cp : Nat) (loc : Loc)
  | undefinedClass (classname : String) (loc : Loc)
  deriving DecidableEq

/-- Embeds `GlyphSelector._apply_suffix`. -/
def applySuffix (glyphname : String) (s : Suffix) : String :=
  if s.suffixtype = "." then
    glyphname ++ "." ++ s.suffix
  else
    if glyphname.endsWith ("." ++ s.suffix) then
      glyphname.dropRight (s.suffix.length + 1)
    else
      glyphname

/-- The `mustExist` postlude of `resolve`: drop names not found in the
exported glyph set, and report the dropped names as one non-fatal warning
when any were dropped.  A warning is modelled by the list of missing names
it reports. -/
def mustExistFilter (glyphs : List String) (names : List String) :
    List String × List (List String) :=
  let notFound := names.filter (fun x => ¬ x ∈ glyphs)
  let kept := names.filter (fun x => x ∈ glyphs)
  (kept, if notFound.length > 0 then [notFound] else [])

/-- The base resolution of a `{"unicodeglyph": cp}` selector:
`font.glyphForCodepoint(cp, fallback=False)`, raising when the font has no
glyph for the codepoint. -/
def resolveUnicodeglyph (font : FontModel) (loc : Loc) (cp : Nat) :
    Except ResolveErr (List String) :=
  match font.glyphForCodepoint cp with
  | none => .error (.noGlyphForCodepoint cp loc)
  | some g => .ok [g]

/-- The `unicoderange` branch of `resolve`: each codepoint in the range is
resolved by a fresh `GlyphSelector({"unicodeglyph": i}, (), loc).resolve(ff,
font)` call — i.e. a suffix-free resolve with `mustExist` at its default
`True` (base lookup, then the existence filter) — and the per-codepoint
results are concatenated (`collapse`). -/
def resolveCodepointRange (font : FontModel) (loc : Loc) :
    List Nat → Except ResolveErr (List String × List (List String))
  | [] => .ok ([], [])
  | cp :: rest => do
      let names ← resolveUnicodeglyph font loc cp
      let (kept, w) := mustExistFilter font.exportedGlyphs names
      let rs ← resolveCodepointRange font loc rest
      .ok (kept ++ rs.1, w ++ rs.2)

mutual

/-- The per-variant base resolution of `GlyphSelector.resolve` (the
`if/elif` chain computing `returned`, before suffix application and the
`mustExist` filter).  Returns the resolved names together with the
warnings emitted by nested member resolutions. -/
def resolveBase (ff : NamedClasses) (font : FontModel) (loc : Loc) :
    SelBase → Except ResolveErr (List String × List (List String))
  | .barename n => .ok ([n], [])
  | .unicodeglyph cp => do
      let names ← resolveUnicodeglyph font loc cp
      .ok (names, [])
  | .unicoderange lo hi =>
      resolveCodepointRange font loc (List.range' lo (hi + 1 - lo))
  | .inlineclass members =>
      resolveMembers ff font loc members
  | .classname c =>
      match NamedClasses.lookup ff c with
      | none => .error (.undefinedClass c loc)
      | some g => .ok (g.toList, [])
  | .regex pat => .ok (font.exportedGlyphs.filter pat, [])
termination_by s => sizeOf s
decreasing_by
  all_goals simp_wf

/-- The `inlineclass` branch: each member is resolved by a fresh
`GlyphSelector(i, (), loc).resolve(ff, font)` call, i.e. with the default
`mustExist=True`, and the results are concatenated (`collapse`). -/
def resolveMembers (ff : NamedClasses) (font : FontModel) (loc : Loc) :
    List SelBase → Except ResolveErr (List String × List (List String))
  | [] => .ok ([], [])
  | m :: rest => do
      let r ← resolveMemberOne ff font loc m
      let rs ← resolveMembers ff font loc rest
      .ok (r.1 ++ rs.1, r.2 ++ rs.2)
termination_by l => sizeOf l
decreasing_by
  all_goals simp_wf
  all_goals cases rest
  all_goals simp
  all_goals omega

/-- A nested `GlyphSelector(sel, (), loc).resolve(fontfeatures, font)` call:
no suffixes, `mustExist` left at its default `True`. -/
def resolveMemberOne (ff : NamedClasses) (font : FontModel) (loc : Loc) (m : SelBase) :
    Except ResolveErr (List String × List (List String)) := do
  let r ← resolveBase ff font loc m
  let (kept, w) := mustExistFilter font.exportedGlyphs r.1
  .ok (kept, r.2 ++ w)
termination_by sizeOf m + 1
decreasing_by
  simp_wf

end

/-- Embeds `GlyphSelector.resolve(self, fontfeatures, font, mustExist=True)`:
base resolution per variant, then suffix application in declared order,
then (only under `mustExist`) the existence filter with its non-fatal
missing-glyph warning. -/
def GlyphSelector.resolve (gs : GlyphSelector) (ff : NamedClasses) (font : FontModel)
    (mustExist : Bool := true) : Except ResolveErr (List String × List (List String)) := do
  let r ← resolveBase ff font gs.location gs.selector
  let suffixed := gs.suffixes.foldl (fun acc s => acc.map (fun g => applySuffix g s)) r.1
  if mustExist then
    let (kept, w) := mustExistFilter font.exportedGlyphs suffixed
    .ok (kept, r.2 ++ w)
  else
    .ok (suffixed, r.2)

/-! ## Class definitions (fontFeatures/feeLib/ClassDefinition.py)

The `DefineClass` transformer's intermediate values.  After lark's
bottom-up transformation a `primary` operand has already been reduced:
`glyphselector` nodes become `GlyphSelector` objects, `predicate` /
`negated_predicate` nodes become callables `(metrics, glyphname) -> bool`
(the glyph's metrics dict is passed as a function from metric name to
value), and `conjunction` nodes become either a plain list (the
left-list/right-callable shortcut) or a `{"conjunction": op, "left": l,
"right": r}` dict. -/

inductive TVal where
  | sel (gs : GlyphSelector)
  | glyphs (g : PyGlyphs)
  | predf (p : (String → Int) → String → Bool)
  | conjd (op : String) (l : TVal) (r : TVal)

/-- The conjunctor translation `{"&": "and", "|": "or", "-": "subtract"}`
applied to the `CONJUNCTOR` token (the grammar admits only these three). -/
def mapConjunctor (c : String) : String :=
  if c = "&" then "and" else if c = "|" then "or" else "subtract"

/-- Embeds `DefineClass.conjunction`: if the left operand is a concrete `list` and
the right operand is callable, specialize to pointwise filtering of the
left list (a Python `set` operand does not satisfy `isinstance(l, list)`);
otherwise build the conjunction dict with the translated operator. -/
def DefineClass.conjunction (font : FontModel) (l : TVal) (c : String) (r : TVal) : TVal :=
  match l, r with
  | .glyphs (.pylist xs), .predf p =>
      .glyphs (.pylist (xs.filter (fun g => p (font.metrics g) g)))
  | l, r => .conjd (mapConjunctor c) l r

/-- Embeds `DefineClass._predicate_for_all_glyphs`: apply a predicate to every
glyph of `font.glyphOrder`, keeping the matching ones in font order. -/
def predicateForAllGlyphs (font : FontModel) (p : (String → Int) → String → Bool) :
    List String :=
  font.glyphOrder.filter (fun g => p (font.metrics g) g)

/-- Failures of class-definition evaluation: a selector-resolution error
propagating out, or a Python `TypeError`/`AttributeError` from handing a
value of the wrong shape to `set()` / calling it / calling `.resolve` on
it. -/
inductive ClassDefErr where
  | resolveErr (e : ResolveErr)
  | typeErr
  deriving DecidableEq

/-- Models `set(x)` as applied by `resolve_definition` to a conjunction operand:
a list or set of names is coerced to a set; a dict yields the set of its
keys (Python iterates a dict by key — unreachable for grammar-produced
operands); a `GlyphSelector` or a callable is not iterable and raises
`TypeError`. -/
def setOfOperand : TVal → Except ClassDefErr (Finset String)
  | .glyphs g => .ok g.toFinset
  | .conjd _ _ _ => .ok {"conjunction", "left", "right"}
  | _ => .error .typeErr

/-- Embeds `DefineClass.resolve_definition(parser, primary)`: a conjunction dict
collapses its two operands, coerced to sets, to `list(left | right)` for
`or`, `list(left & right)` for `and`, and the *set* `left - right` for
`subtract`; anything else is resolved as a glyph selector (with
`mustExist` at its default `True`), which also reports that resolution's
warnings. -/
def resolve_definition (ff : NamedClasses) (font : FontModel) :
    TVal → Except ClassDefErr (PyGlyphs × List (List String))
  | .conjd op l r => do
      let left ← setOfOperand l
      let right ← setOfOperand r
      if op = "or" then .ok (.pylist ((left ∪ right).sort (· ≤ ·)), [])
      else if op = "and" then .ok (.pylist ((left ∩ right).sort (· ≤ ·)), [])
      else .ok (.pyset (left \ right), [])
  | .sel gs =>
      match gs.resolve ff font true with
      | .error e => .error (.resolveErr e)
      | .ok r => .ok (.pylist r.1, r.2)
  | _ => .error .typeErr

/-- Embeds `DefineClass.primary`: a `GlyphSelector` or a conjunction dict goes
through `resolve_definition`; otherwise the value is assumed callable and
applied to the whole glyph order (`_predicate_for_all_glyphs`) — handing a
plain list here would *call* the list and raise `TypeError`. -/
def DefineClass.primary (ff : NamedClasses) (font : FontModel) :
    TVal → Except ClassDefErr (PyGlyphs × List (List String))
  | .sel gs => resolve_definition ff font (.sel gs)
  | .conjd op l r => resolve_definition ff font (.conjd op l r)
  | .predf p => .ok (.pylist (predicateForAllGlyphs font p), [])
  | .glyphs _ => .error .typeErr

/-- Embeds `DefineClass.action`: strip the `@` sigil from the class-name token
(`classname = classname[1:]`) and store the already-evaluated primary
value in `fontfeatures.namedClasses`
(`DefineClass._add_glyphs_to_named_class`). -/
def DefineClass.action (ff : NamedClasses) (classnameToken : String) (glyphs : PyGlyphs) :
    NamedClasses :=
  NamedClasses.set ff (classnameToken.drop 1) glyphs

/-- A whole `DefineClass` statement: evaluate the primary, then run the
action against the named-class table. -/
def defineClassStatement (ff : NamedClasses) (font : FontModel)
    (classnameToken : String) (v : TVal) : Except ClassDefErr NamedClasses := do
  let r ← DefineClass.primary ff font v
  .ok (DefineClass.action ff classnameToken r.1)

/-! ## Binning (DefineClassBinned) -/

/-- Split a list at the given ascending absolute cut positions; `prev` is
the absolute position at which the remaining list starts. -/
def splitsAtFrom (prev : Nat) : List Nat → List α → List (List α)
  | [], l => [l]
  | c :: rest, l => l.take (c - prev) :: splitsAtFrom c rest (l.drop (c - prev))

/-- Split a list at the given ascending cut positions. -/
def splitsAt (cuts : List Nat) (l : List α) : List (List α) :=
  splitsAtFrom 0 cuts l

/-- Modelled from the spec: `bin_glyphs_by_metric`, imported by
ClassDefinition.py from the external `glyphtools` package (not part of
this repository).  Per the spec (§4.5), `bin(glyphSet, metric, binCount)`
returns an ordered sequence of bins, ordered ascending by the metric,
clustering by similarity of the metric value (1-D clustering, not
equal-frequency binning): the glyphs are sorted ascending by the metric
and split at the `binCount - 1` largest gaps between consecutive metric
values.  Each bin is returned together with its average metric value. -/
def bin_glyphs_by_metric (font : FontModel) (glyphs : List String)
    (metric : String) (bincount : Nat) : List (List String × Int) :=
  let pairs := List.insertionSort (fun a b => a.2 ≤ b.2)
    (glyphs.map (fun g => (g, font.metrics g metric)))
  let vals := pairs.map Prod.snd
  let gaps := ((vals.zip (vals.drop 1)).enum).map (fun p => (p.1 + 1, p.2.2 - p.2.1))
  let biggest := (List.insertionSort (fun a b => b.2 ≤ a.2) gaps).take (bincount - 1)
  let cuts := List.insertionSort (fun a b => a ≤ b) (biggest.map Prod.fst)
  (splitsAt cuts pairs).map (fun b =>
    (b.map Prod.fst, (b.foldl (fun s p => s + p.2) 0) / (b.length : Int)))

/-- Embeds `DefineClassBinned.action`: bin the already-resolved glyphs and store
one named class per bin under the key `"%s_%s%i" % (classname, metric, i)`
with 1-based `i` — where `classname` is the *raw* `CLASSNAME` token
`args[0]`, including its `@` sigil (unlike `DefineClass.action`, which
strips the sigil with `classname[1:]` before storing). -/
def DefineClassBinned.action (ff : NamedClasses) (font : FontModel)
    (classnameToken : String) (metricToken : String) (bincount : Nat)
    (glyphs : PyGlyphs) : NamedClasses :=
  let binned := bin_glyphs_by_metric font glyphs.toList metricToken bincount
  (List.range' 1 bincount).foldl
    (fun t i =>
      NamedClasses.set t (classnameToken ++ "_" ++ metricToken ++ toString i)
        (.pylist ((binned.getD (i - 1) ([], 0)).1)))
    ff

/-! ## Named-integer references (`FEEVerb.NAMEDINTEGER`) -/

/-- The variable table `parser.variables`. -/
abbrev Variables := List (String × Int)

def Variables.lookup (t : Variables) (n : String) : Option Int :=
  match t with
  | [] => none
  | (k, v) :: rest => if k = n then some v else Variables.lookup rest n

/-- What `FEEVerb.NAMEDINTEGER` hands back to the surrounding
transformation: either the bound value, or — as the code stands — a
`ValueError` *object* returned as if it were the value. -/
inductive PyValue where
  | intv (n : Int)
  | excObj (msg : String)
  deriving DecidableEq

/-- Embeds `FEEVerb.NAMEDINTEGER(self, tok)`: strip the `$` sigil
(`name = tok[1:]`); when the name is bound in `self.parser.variables`,
return its value; otherwise the source executes
`return ValueError("Undefined variable: %s")` — it *returns* the exception
object as the token's value instead of raising it, and the `%s` is never
interpolated with the name. -/
def FEEVerb.NAMEDINTEGER (vars : Variables) (tok : String) : PyValue :=
  let name := tok.drop 1
  match Variables.lookup vars name with
  | some v => .intv v
  | none => .excObj "Undefined variable: %s"

/-! ## Statement dispatch (`FeeTransformer.statement`) -/

/-- Modelled from the spec: the `Routine` IR object (its class lives in the
package's top-level module, outside the excerpted sources): an ordered
sequence of Rules, an optional name, a source-address list, and a
lookup-flag value.  A Rule is identified abstractly by its content. -/
structure Routine where
  flags : Nat
  address : List String
  name : Option String
  rules : List String
  deriving DecidableEq

/-- The IR owned by one compilation session: the named-class table, the
variable table, the routines, and the features mapping (feature tag to
routine references by identity, modelled as indices). -/
structure IRState where
  namedClasses : NamedClasses
  vars : Variables
  routines : List Routine
  features : List (String × List Nat)
  deriving DecidableEq

/-- A statement argument as seen by `FeeTransformer.statement`: a raw token
string, or an already-reduced nested-statement tuple (produced for the
brace body of a block verb). -/
inductive Arg where
  | tok (s : String)
  | nested (verb : String) (payload : List String)
  deriving DecidableEq

/-- The value of one transformed statement: the raw `(verb, args)` pair
passed through unresolved for an unknown verb, or the registered verb's
transformed output. -/
inductive StmtResult where
  | raw (verb : String) (args : List Arg)
  | resolved (verb : String) (out : List String)
  deriving DecidableEq

/-- The plugin table `self.parser.plugins`: verb name to the verb's
implementation.  A registered implementation bundles the verb's parsers
and transformer; it consumes the statement's arguments and may read and
mutate the IR. -/
abbrev PluginTable := List (String × (List Arg → IRState → List String × IRState))

def PluginTable.lookup (t : PluginTable) (v : String) : Option (List Arg → IRState → List String × IRState) :=
  match t with
  | [] => none
  | (k, p) :: rest => if k = v then some p else PluginTable.lookup rest v

/-- Embeds `FeeTransformer.statement`, dispatch skeleton: if the verb is not in
`self.parser.plugins`, emit `warnings.warn("Unknown verb: %s" % verb)` and
return the raw `(verb, args)` pair unresolved, leaving the IR untouched;
otherwise hand the arguments to the registered verb implementation (whose
before-brace/brace/after-brace re-parsing and transformation the
registered function encapsulates). -/
def FeeTransformer.statement (plugins : PluginTable) (st : IRState)
    (warns : List String) (verb : String) (args : List Arg) :
    StmtResult × IRState × List String :=
  match PluginTable.lookup plugins verb with
  | none => (.raw verb args, st, warns ++ ["Unknown verb: " ++ verb])
  | some p =>
      let r := p args st
      (.resolved verb r.1, r.2, warns)

/-! ## Routine XML serialization (fontFeatures/xmlLib/Routine.py)

Python's `str` on a nonnegative integer and `int` on a decimal string are
modelled by `strOfNat` and `intOfString`. -/

/-- Python `str(n)` for a nonnegative integer: its decimal digit string. -/
def strOfNat (n : Nat) : String :=
  if n = 0 then "0"
  else ⟨(Nat.digits 10 n).reverse.map (fun d => Char.ofNat (48 + d))⟩

/-- Python `int(s)` for a decimal digit string. -/
def intOfString (s : String) : Nat :=
  s.toList.foldl (fun a c => a * 10 + (c.toNat - 48)) 0

/-- The lxml element produced by `toXML`: its (optional) `flags`,
`address` and `name` attributes and its child elements in order.  Modelled
from the spec for the part outside the excerpted sources: `Rule.toXML` /
`Rule.fromXML` round-trip each rule, so a child element is identified with
the rule it serializes. -/
structure RoutineXML where
  flagsAttr : Option String
  addressAttr : Option String
  nameAttr : Option String
  children : List String
  deriving DecidableEq

/-- Embeds `toXML(self)`: each attribute is set only when the corresponding field
is Python-truthy — `flags` nonzero, `address` a non-empty list, `name`
neither `None` nor the empty string; `address` is pipe-joined; one child
element is appended per rule, in order. -/
def Routine.toXML (r : Routine) : RoutineXML :=
  { flagsAttr := if r.flags ≠ 0 then some (strOfNat r.flags) else none
  , addressAttr := if r.address ≠ [] then some (String.intercalate "|" r.address) else none
  , nameAttr := match r.name with
      | some s => if s ≠ "" then some s else none
      | none => none
  , children := r.rules }

/-- Embeds `fromXML(klass, el)`: `address=(el.get("address") or "").split("|")`,
`name=el.get("name")`, `flags=(int(el.get("flags") or 0))`, then
`addRule(Rule.fromXML(r))` for each child in order (`addRule` appends; it
is modelled from the spec, living outside the excerpted sources). -/
def Routine.fromXML (el : RoutineXML) : Routine :=
  { flags := match el.flagsAttr with
      | none => 0
      | some s => intOfString s
  , address := (el.addressAttr.getD "").splitOn "|"
  , name := el.nameAttr
  , rules := el.children }

/-! ## Concrete fixtures used by the closed theorems -/

/-- A font exporting the single glyph `a`. -/
def fontOnlyA : FontModel := ⟨["a"], ["a"], fun _ => none, fun _ _ => 0⟩

/-- The six-glyph font of the binning scenario: advance widths
99, 100, 110, 120, 500, 510. -/
def fontBins : FontModel :=
  { exportedGlyphs := ["A", "B", "C", "D", "E", "F"]
  , glyphOrder := ["A", "B", "C", "D", "E", "F"]
  , glyphForCodepoint := fun _ => none
  , metrics := fun g _ =>
      if g = "A" then 99 else if g = "B" then 100 else if g = "C" then 110
      else if g = "D" then 120 else if g = "E" then 500 else 510 }

/-- The named-class table after `DefineClassBinned @bases[width,2] = @bases;`
over the six glyphs (the `@bases` operand having resolved to all six). -/
def binnedClasses : NamedClasses :=
  DefineClassBinned.action [] fontBins "@bases" "width" 2
    (.pylist ["A", "B", "C", "D", "E", "F"])

/-- A Routine whose name is *set* but empty. -/
def routineNamedEmpty : Routine := ⟨1, ["f.fee:1"], some "", ["rule1"]⟩

/-! ## Theorems for the claims -/

/-- Claim C1: fails on the code: the `mustExist` existence filter at the end of
`GlyphSelector.resolve` applies to the `barename` variant like every other,
so resolving the bare name `b` with `mustExist=true` against a font whose
exported glyphs are only `a` drops the name (returning the empty sequence)
and emits a missing-glyph warning, instead of returning `["b"]` unchecked. -/
theorem C1_counterexample :
    GlyphSelector.resolve ⟨.barename "b", [], (1, 1)⟩ [] fontOnlyA true = .ok ([], [["b"]]) ∧
    GlyphSelector.resolve ⟨.barename "b", [], (1, 1)⟩ [] fontOnlyA true ≠ .ok (["b"], []) := by
  have h : GlyphSelector.resolve ⟨.barename "b", [], (1, 1)⟩ [] fontOnlyA true
      = .ok ([], [["b"]]) := by
    simp [GlyphSelector.resolve, resolveBase, mustExistFilter,
      Bind.bind, Except.bind, Except.instMonad]
    decide
  exact ⟨h, by rw [h]; simp⟩

/-- Claim C1 (amended): for a suffix-free `bareName` selector, the base
resolution is the one-element sequence of the literal name with no
per-variant existence check; with `mustExist=false` it is returned
unchanged, while with `mustExist=true` the uniform final filter keeps the
name exactly when it is among the font's exported glyphs, otherwise
dropping it with a non-fatal missing-glyph warning. -/
theorem C1_bareName_resolution (ff : NamedClasses) (font : FontModel)
    (n : String) (loc : Loc) :
    GlyphSelector.resolve ⟨.barename n, [], loc⟩ ff font false = .ok ([n], []) ∧
    GlyphSelector.resolve ⟨.barename n, [], loc⟩ ff font true =
      (if n ∈ font.exportedGlyphs then .ok ([n], []) else .ok ([], [[n]])) := by
  constructor
  · simp [GlyphSelector.resolve, resolveBase, Bind.bind, Except.bind, Except.instMonad]
  · by_cases h : n ∈ font.exportedGlyphs <;>
      simp [GlyphSelector.resolve, resolveBase, mustExistFilter, h,
        Bind.bind, Except.bind, Except.instMonad]

/-- Claim C5:: resolving a `className` selector whose name is not in the
named-class table fails with the fatal resolution error carrying the
undefined class name and the selector's source location — the `Except`
error aborts the surrounding computation, so compilation does not continue
past it.  This holds for both values of `mustExist` and any suffixes. -/
theorem C5_undefined_class_error (ff : NamedClasses) (font : FontModel)
    (c : String) (suffixes : List Suffix) (loc : Loc) (mustExist : Bool)
    (h : NamedClasses.lookup ff c = none) :
    GlyphSelector.resolve ⟨.classname c, suffixes, loc⟩ ff font mustExist
      = .error (.undefinedClass c loc) := by
  simp [GlyphSelector.resolve, resolveBase, h, Bind.bind, Except.bind, Except.instMonad]

/-- Witness for C5: the class `undefined_class` is absent from the empty
table, and resolving `@undefined_class` at source location (5, 1) yields
the error naming exactly that class and location. -/
theorem C5_witness :
    NamedClasses.lookup [] "undefined_class" = none ∧
    GlyphSelector.resolve ⟨.classname "undefined_class", [], (5, 1)⟩ [] fontOnlyA true
      = .error (.undefinedClass "undefined_class" (5, 1)) :=
  ⟨rfl, C5_undefined_class_error [] fontOnlyA "undefined_class" [] (5, 1) true rfl⟩

/-- Claim C6: is right and the code is wrong: `FEEVerb.NAMEDINTEGER` on an
unbound name *returns* the `ValueError` object as the token's value instead
of raising it — the literal, uninterpolated message `"Undefined variable:
%s"` (the identifier is never reported) — so the unresolved reference is
passed on as a value rather than aborting compilation. -/
theorem C6_undefined_variable_returned :
    FEEVerb.NAMEDINTEGER [] "$x" = .excObj "Undefined variable: %s" ∧
    (∀ v : Int, FEEVerb.NAMEDINTEGER [] "$x" ≠ .intv v) := by
  refine ⟨rfl, fun v => ?_⟩
  simp [FEEVerb.NAMEDINTEGER, Variables.lookup]

/-- Claim C7:: transforming a statement whose verb is not registered in the
plugin table appends exactly one `"Unknown verb: ..."` warning, returns the
raw `(verb, args)` pair unresolved, and leaves the IR state — named
classes, variables, routines, features — exactly as it was. -/
theorem C7_unknown_verb (plugins : PluginTable) (st : IRState) (warns : List String)
    (verb : String) (args : List Arg)
    (h : PluginTable.lookup plugins verb = none) :
    FeeTransformer.statement plugins st warns verb args
      = (.raw verb args, st, warns ++ ["Unknown verb: " ++ verb]) := by
  simp [FeeTransformer.statement, h]

/-- Witness for C7: the verb `Frobnicate` is unknown to the empty plugin
table; its statement passes through raw with one warning and an unchanged
IR. -/
theorem C7_witness :
    PluginTable.lookup [] "Frobnicate" = none ∧
    FeeTransformer.statement [] ⟨[], [], [], []⟩ [] "Frobnicate" [.tok "x"]
      = (.raw "Frobnicate" [.tok "x"], ⟨[], [], [], []⟩, ["Unknown verb: Frobnicate"]) :=
  ⟨rfl, by simpa using C7_unknown_verb [] ⟨[], [], [], []⟩ [] "Frobnicate" [.tok "x"] rfl⟩

/-- Claim C10: fails on the code: with `mustExist=false`, resolving the inline
class `[b]` against a font exporting only `a` still returns the empty
sequence with a missing-glyph warning, because each inline-class member is
resolved by a nested `resolve` call with `mustExist` left at its default
`True`. -/
theorem C10_counterexample :
    GlyphSelector.resolve ⟨.inlineclass [.barename "b"], [], (2, 1)⟩ [] fontOnlyA false
      = .ok ([], [["b"]]) ∧
    GlyphSelector.resolve ⟨.inlineclass [.barename "b"], [], (2, 1)⟩ [] fontOnlyA false
      ≠ .ok (["b"], []) := by
  have h : GlyphSelector.resolve ⟨.inlineclass [.barename "b"], [], (2, 1)⟩ [] fontOnlyA false
      = .ok ([], [["b"]]) := by
    simp [GlyphSelector.resolve, resolveBase, resolveMembers, resolveMemberOne,
      mustExistFilter, Bind.bind, Except.bind, Except.instMonad]
    decide
  exact ⟨h, by rw [h]; simp⟩

/-- Claim C10 (amended): with `mustExist=false`, `resolve` performs no final
filtering against the exported glyph set and emits no final missing-glyph
diagnostic: it returns exactly the base resolution followed by suffix
application in order, with exactly the warnings produced inside the base
resolution.  (Nested member resolutions of `inlineClass` and
`unicodeRange` selectors still run with `mustExist=true`, so those may
filter and warn; for a suffix-free `bareName` or `regex` selector the
result is unfiltered and warning-free.) -/
theorem C10_no_final_filter (gs : GlyphSelector) (ff : NamedClasses) (font : FontModel) :
    (GlyphSelector.resolve gs ff font false
      = (resolveBase ff font gs.location gs.selector).map
          (fun r => (gs.suffixes.foldl (fun acc s => acc.map (fun g => applySuffix g s)) r.1, r.2)))
    ∧ (∀ n loc, GlyphSelector.resolve ⟨.barename n, [], loc⟩ ff font false = .ok ([n], []))
    ∧ (∀ pat loc, GlyphSelector.resolve ⟨.regex pat, [], loc⟩ ff font false
        = .ok (font.exportedGlyphs.filter pat, [])) := by
  refine ⟨?_, fun n loc => ?_, fun pat loc => ?_⟩
  · simp only [GlyphSelector.resolve]
    cases resolveBase ff font gs.location gs.selector <;>
      simp [Except.map, Bind.bind, Except.bind, Except.instMonad]
  · simp [GlyphSelector.resolve, resolveBase, Bind.bind, Except.bind, Except.instMonad]
  · simp [GlyphSelector.resolve, resolveBase, Bind.bind, Except.bind, Except.instMonad]

/-- Claim C2:: for a conjunction whose operands are already-resolved glyph
sets `A` and `B`, evaluation through `DefineClass.conjunction` and
`resolve_definition` yields, as a set of names, `A ∪ B` for `|`, `A ∩ B`
for `&` and `A \ B` for `-`; the `|` and `&` results are unchanged by
swapping the operands, and the `-` result is not. -/
theorem C2_conjunction_algebra (ff : NamedClasses) (font : FontModel) (A B : PyGlyphs) :
    ((resolve_definition ff font (DefineClass.conjunction font (.glyphs A) "|" (.glyphs B))).map
        (fun p => p.1.toFinset) = .ok (A.toFinset ∪ B.toFinset))
    ∧ ((resolve_definition ff font (DefineClass.conjunction font (.glyphs A) "&" (.glyphs B))).map
        (fun p => p.1.toFinset) = .ok (A.toFinset ∩ B.toFinset))
    ∧ ((resolve_definition ff font (DefineClass.conjunction font (.glyphs A) "-" (.glyphs B))).map
        (fun p => p.1.toFinset) = .ok (A.toFinset \ B.toFinset))
    ∧ ((resolve_definition ff font (DefineClass.conjunction font (.glyphs A) "|" (.glyphs B))).map
        (fun p => p.1.toFinset)
      = (resolve_definition ff font (DefineClass.conjunction font (.glyphs B) "|" (.glyphs A))).map
        (fun p => p.1.toFinset))
    ∧ ((resolve_definition ff font (DefineClass.conjunction font (.glyphs A) "&" (.glyphs B))).map
        (fun p => p.1.toFinset)
      = (resolve_definition ff font (DefineClass.conjunction font (.glyphs B) "&" (.glyphs A))).map
        (fun p => p.1.toFinset))
    ∧ ¬ (∀ C D : PyGlyphs,
        (resolve_definition ff font (DefineClass.conjunction font (.glyphs C) "-" (.glyphs D))).map
          (fun p => p.1.toFinset)
        = (resolve_definition ff font (DefineClass.conjunction font (.glyphs D) "-" (.glyphs C))).map
          (fun p => p.1.toFinset)) := by
  have hcase : ∀ X Y : PyGlyphs, ∀ c : String,
      DefineClass.conjunction font (.glyphs X) c (.glyphs Y)
        = .conjd (mapConjunctor c) (.glyphs X) (.glyphs Y) := by
    intro X Y c
    cases X <;> rfl
  refine ⟨?_, ?_, ?_, ?_, ?_, ?_⟩
  · rw [hcase]
    simp [resolve_definition, mapConjunctor, setOfOperand, Except.map, PyGlyphs.toFinset,
      Bind.bind, Except.bind, Except.instMonad, Finset.sort_toFinset]
  · rw [hcase]
    simp [resolve_definition, mapConjunctor, setOfOperand, Except.map, PyGlyphs.toFinset,
      Bind.bind, Except.bind, Except.instMonad, Finset.sort_toFinset]
  · rw [hcase]
    simp [resolve_definition, mapConjunctor, setOfOperand, Except.map, PyGlyphs.toFinset,
      Bind.bind, Except.bind, Except.instMonad]
  · rw [hcase, hcase]
    simp [resolve_definition, mapConjunctor, setOfOperand, Except.map, PyGlyphs.toFinset,
      Bind.bind, Except.bind, Except.instMonad, Finset.sort_toFinset, Finset.union_comm]
  · rw [hcase, hcase]
    simp [resolve_definition, mapConjunctor, setOfOperand, Except.map, PyGlyphs.toFinset,
      Bind.bind, Except.bind, Except.instMonad, Finset.sort_toFinset, Finset.inter_comm]
  · intro hall
    have h := hall (.pylist ["a"]) (.pylist [])
    rw [hcase, hcase] at h
    simp [resolve_definition, mapConjunctor, setOfOperand, Except.map, PyGlyphs.toFinset,
      Bind.bind, Except.bind, Except.instMonad] at h

/-- Claim C3:: whenever the left operand of `DefineClass.conjunction` is a
concrete glyph list and the right operand is a callable predicate, the
result is exactly the left list filtered pointwise by the predicate in
left-list order — for every conjunctor token — and this differs from the
algebraic combination of the left set with the predicate materialized over
the whole font's glyph order (witnessed by a glyph outside the glyph order
that satisfies the predicate: filtering keeps it, the intersection with
the materialized set drops it). -/
theorem C3_filter_specialization :
    (∀ (font : FontModel) (xs : List String) (p : (String → Int) → String → Bool) (op : String),
      DefineClass.conjunction font (.glyphs (.pylist xs)) op (.predf p)
        = .glyphs (.pylist (xs.filter (fun g => p (font.metrics g) g))))
    ∧ (∃ (ff : NamedClasses) (font : FontModel) (xs : List String)
          (p : (String → Int) → String → Bool),
        (resolve_definition ff font (.conjd "and" (.glyphs (.pylist xs))
            (.glyphs (.pylist (predicateForAllGlyphs font p))))).map (fun q => q.1.toFinset)
          ≠ .ok ((xs.filter (fun g => p (font.metrics g) g)).toFinset)) := by
  constructor
  · intro font xs p op; rfl
  · refine ⟨[], ⟨["a"], ["a"], fun _ => none, fun _ _ => 0⟩, ["b"], fun _ _ => true, ?_⟩
    simp [resolve_definition, setOfOperand, predicateForAllGlyphs, Except.map, PyGlyphs.toFinset,
      Bind.bind, Except.bind, Except.instMonad, Finset.sort_toFinset]
    exact Ne.symm (Finset.singleton_ne_empty _)

/-- Claim C4: is right about the intended behaviour and the code is wrong:
executing `DefineClassBinned @bases[width,2] = @bases;` over the six
glyphs of widths 99, 100, 110, 120, 500, 510 does add exactly two entries,
binned four-and-two as claimed — but under the keys `@bases_width1` /
`@bases_width2` (the raw class token, sigil included, is interpolated into
the key), so the keys `bases_width1` / `bases_width2` that a subsequent
`@bases_width1` selector looks up (selectors strip the sigil, as does
`DefineClass.action` when storing) are absent, and resolving that selector
raises an undefined-class error instead of returning the four narrow
glyphs. -/
theorem C4_binned_sigil_bug :
    binnedClasses.length = 2
    ∧ NamedClasses.lookup binnedClasses "@bases_width1" = some (.pylist ["A", "B", "C", "D"])
    ∧ NamedClasses.lookup binnedClasses "@bases_width2" = some (.pylist ["E", "F"])
    ∧ NamedClasses.lookup binnedClasses "bases_width1" = none
    ∧ NamedClasses.lookup binnedClasses "bases_width2" = none
    ∧ GlyphSelector.resolve ⟨.classname "bases_width1", [], (3, 1)⟩ binnedClasses fontBins true
        = .error (.undefinedClass "bases_width1" (3, 1)) := by
  have h : NamedClasses.lookup binnedClasses "bases_width1" = none := by decide
  refine ⟨by decide, by decide, by decide, h, by decide, ?_⟩
  simp [GlyphSelector.resolve, resolveBase, h, Bind.bind, Except.bind, Except.instMonad]

/-- Looking a key up after a `NamedClasses.set` finds the new value at the
set key and is otherwise unaffected. -/
theorem NamedClasses.lookup_set (t : NamedClasses) (c k : String) (v : PyGlyphs) :
    NamedClasses.lookup (NamedClasses.set t c v) k
      = if k = c then some v else NamedClasses.lookup t k := by
  induction t with
  | nil =>
      by_cases h : k = c
      · subst h; simp [NamedClasses.set, NamedClasses.lookup]
      · simp [NamedClasses.set, NamedClasses.lookup, h, Ne.symm h]
  | cons p rest ih =>
      obtain ⟨a, b⟩ := p
      by_cases hac : a = c
      · subst hac
        by_cases hk : k = a
        · subst hk; simp [NamedClasses.set, NamedClasses.lookup]
        · simp [NamedClasses.set, NamedClasses.lookup, hk, Ne.symm hk]
      · by_cases hk : k = a
        · subst hk
          simp [NamedClasses.set, NamedClasses.lookup, hac]
        · simp [NamedClasses.set, NamedClasses.lookup, hac, hk, Ne.symm hk, ih]

/-- A fold of `NamedClasses.set` insertions that only stores `pylist`
values leaves every looked-up value either a sequence or one that was
already present. -/
theorem lookup_foldl_pylists (keys : List Nat) (f : Nat → String) (vals : Nat → List String)
    (t : NamedClasses) (key : String) (pg : PyGlyphs) :
    NamedClasses.lookup
        (keys.foldl (fun acc i => NamedClasses.set acc (f i) (.pylist (vals i))) t) key
      = some pg →
    pg.isSequence = true ∨ NamedClasses.lookup t key = some pg := by
  induction keys generalizing t with
  | nil => exact fun h => .inr h
  | cons i rest ih =>
      intro h
      rcases ih _ h with hseq | hlk
      · exact .inl hseq
      · rw [NamedClasses.lookup_set] at hlk
        by_cases hk : key = f i
        · simp [hk] at hlk
          exact .inl (by rw [← hlk]; rfl)
        · simp [hk] at hlk
          exact .inr hlk

/-- Claim C8: fails on the code: defining `@ABC` by the subtract conjunction
`["A","B"] - ["B"]` stores the Python *set* produced by
`resolve_definition`'s `subtract` branch (`set(left) - set(right)`, never
converted back to a list) in the named-class table — an unordered
collection, not a sequence. -/
theorem C8_counterexample :
    (defineClassStatement [] fontOnlyA "@ABC"
        (.conjd "subtract" (.glyphs (.pylist ["A", "B"])) (.glyphs (.pylist ["B"])))).map
      (fun t => (NamedClasses.lookup t "ABC").map PyGlyphs.isSequence)
      = .ok (some false) := by
  simp [defineClassStatement, DefineClass.primary, resolve_definition, setOfOperand,
    DefineClass.action, NamedClasses.set, NamedClasses.lookup, Except.map,
    Bind.bind, Except.bind, Except.instMonad, PyGlyphs.isSequence, PyGlyphs.toFinset]
  decide

/-- Claim C8 (amended): after a `DefineClass` statement, every value stored
in the named-class table is a sequence — *except* when the evaluated
definition is a conjunction whose operator is neither `or` nor `and`
(i.e. the `-`/`subtract` case), which stores an unordered set; every value
stored by `DefineClassBinned.action` is a sequence (a tuple). -/
theorem C8_stored_values :
    (∀ (ff : NamedClasses) (font : FontModel) (classT : String) (v : TVal) (t : NamedClasses),
      defineClassStatement ff font classT v = .ok t →
      ∀ key pg, NamedClasses.lookup t key = some pg →
        pg.isSequence = true
        ∨ NamedClasses.lookup ff key = some pg
        ∨ (∃ op l r, v = .conjd op l r ∧ op ≠ "or" ∧ op ≠ "and"))
    ∧ (∀ (ff : NamedClasses) (font : FontModel) (classT metricT : String) (n : Nat)
        (g : PyGlyphs) (key : String) (pg : PyGlyphs),
      NamedClasses.lookup (DefineClassBinned.action ff font classT metricT n g) key = some pg →
        pg.isSequence = true ∨ NamedClasses.lookup ff key = some pg) := by
  constructor
  · intro ff font classT v t h key pg hlk
    rcases hres : DefineClass.primary ff font v with e | res
    · rw [defineClassStatement, hres] at h
      simp [Bind.bind, Except.bind] at h
    · rw [defineClassStatement, hres] at h
      simp [Bind.bind, Except.bind, Except.pure, Pure.pure] at h
      subst h
      rw [DefineClass.action, NamedClasses.lookup_set] at hlk
      by_cases hk : key = classT.drop 1
      · simp [hk] at hlk
        subst hlk
        cases v with
        | sel gs =>
            rw [DefineClass.primary, resolve_definition] at hres
            rcases hr : gs.resolve ff font true with e2 | r2
            · rw [hr] at hres; simp at hres
            · rw [hr] at hres; simp at hres
              subst hres; left; rfl
        | glyphs g2 => rw [DefineClass.primary] at hres; simp at hres
        | predf p =>
            rw [DefineClass.primary] at hres
            simp at hres
            subst hres; left; rfl
        | conjd op l r =>
            by_cases hor : op = "or"
            · subst hor
              rw [DefineClass.primary, resolve_definition] at hres
              rcases hl : setOfOperand l with e2 | ls
              · rw [hl] at hres; simp [Bind.bind, Except.bind] at hres
              · rcases hrr : setOfOperand r with e3 | rs
                · rw [hl, hrr] at hres; simp [Bind.bind, Except.bind] at hres
                · rw [hl, hrr] at hres
                  simp [Bind.bind, Except.bind] at hres
                  subst hres; left; rfl
            · by_cases hand : op = "and"
              · subst hand
                rw [DefineClass.primary, resolve_definition] at hres
                rcases hl : setOfOperand l with e2 | ls
                · rw [hl] at hres; simp [Bind.bind, Except.bind] at hres
                · rcases hrr : setOfOperand r with e3 | rs
                  · rw [hl, hrr] at hres; simp [Bind.bind, Except.bind] at hres
                  · rw [hl, hrr] at hres
                    simp [Bind.bind, Except.bind] at hres
                    subst hres; left; rfl
              · right; right; exact ⟨op, l, r, rfl, hor, hand⟩
      · simp [hk] at hlk
        right; left; exact hlk
  · intro ff font classT metricT n g key pg h
    rw [DefineClassBinned.action] at h
    exact lookup_foldl_pylists (List.range' 1 n) _ _ ff key pg h

/-- Witness for C8 (amended): `DefineClass @good = a;` against the
one-glyph font stores the sequence `["a"]`, to which the first part
applies; the binned table of the width scenario stores the sequence
`["A","B","C","D"]` under its (sigil-bearing) key, to which the second
part applies. -/
theorem C8_witness :
    (defineClassStatement [] fontOnlyA "@good" (.sel ⟨.barename "a", [], (1, 1)⟩)
        = .ok [("good", .pylist ["a"])])
    ∧ ((PyGlyphs.pylist ["a"]).isSequence = true
        ∨ NamedClasses.lookup [] "good" = some (.pylist ["a"])
        ∨ (∃ op l r, (TVal.sel ⟨.barename "a", [], (1, 1)⟩) = .conjd op l r
            ∧ op ≠ "or" ∧ op ≠ "and"))
    ∧ (NamedClasses.lookup binnedClasses "@bases_width1" = some (.pylist ["A", "B", "C", "D"]))
    ∧ ((PyGlyphs.pylist ["A", "B", "C", "D"]).isSequence = true
        ∨ NamedClasses.lookup [] "@bases_width1" = some (.pylist ["A", "B", "C", "D"])) := by
  have h1 : defineClassStatement [] fontOnlyA "@good" (.sel ⟨.barename "a", [], (1, 1)⟩)
      = .ok [("good", .pylist ["a"])] := by
    simp [defineClassStatement, DefineClass.primary, resolve_definition, GlyphSelector.resolve,
      resolveBase, mustExistFilter, DefineClass.action, NamedClasses.set,
      Bind.bind, Except.bind, Except.instMonad]
    decide
  have h2 : NamedClasses.lookup [("good", PyGlyphs.pylist ["a"])] "good"
      = some (.pylist ["a"]) := by decide
  have h4 : NamedClasses.lookup binnedClasses "@bases_width1"
      = some (.pylist ["A", "B", "C", "D"]) := by decide
  exact ⟨h1, C8_stored_values.1 [] fontOnlyA "@good" _ _ h1 "good" _ h2, h4,
    C8_stored_values.2 [] fontBins "@bases" "width" 2
      (.pylist ["A", "B", "C", "D", "E", "F"]) "@bases_width1" _ h4⟩

/-- A decimal digit character holds its digit value. -/
theorem digitChar_val (d : Nat) (h : d < 10) : (Char.ofNat (48 + d)).toNat - 48 = d := by
  interval_cases d <;> decide

/-- Folding the decimal-parse step over a rendered digit list recovers the
value those digits denote (most significant first). -/
theorem foldl_digits (ds : List Nat) (hd : ∀ d ∈ ds, d < 10) (a : Nat) :
    ((ds.map (fun d => Char.ofNat (48 + d))).foldl (fun x c => x * 10 + (c.toNat - 48)) a)
      = a * 10 ^ ds.length + Nat.ofDigits 10 ds.reverse := by
  induction ds generalizing a with
  | nil => simp [Nat.ofDigits]
  | cons d ds ih =>
      simp only [List.map_cons, List.foldl_cons, List.reverse_cons, List.length_cons]
      rw [ih (fun x hx => hd x (List.mem_cons_of_mem _ hx))]
      rw [digitChar_val d (hd d (List.mem_cons_self _ _))]
      rw [Nat.ofDigits_append]
      simp [Nat.ofDigits]
      ring

/-- Python's `int` inverts Python's `str` on nonnegative integers. -/
theorem intOfString_strOfNat (n : Nat) : intOfString (strOfNat n) = n := by
  by_cases h : n = 0
  · subst h; decide
  · rw [strOfNat, if_neg h, intOfString]
    have hlt : ∀ d ∈ (Nat.digits 10 n).reverse, d < 10 := by
      intro d hdm
      exact Nat.digits_lt_base (by norm_num) (List.mem_reverse.mp hdm)
    have hl : (String.mk ((Nat.digits 10 n).reverse.map (fun d => Char.ofNat (48 + d)))).toList
        = (Nat.digits 10 n).reverse.map (fun d => Char.ofNat (48 + d)) := rfl
    rw [hl, foldl_digits _ hlt 0]
    simp [Nat.ofDigits_digits]

/-- Claim C9: fails on the code in one particular: a `Routine` whose name is
*set but empty* has its `name` attribute omitted by `toXML` (the Python
truthiness test `if self.name:` treats `""` like `None`), so "omits `name`
exactly when the name is unset" does not hold. -/
theorem C9_counterexample :
    (Routine.toXML routineNamedEmpty).nameAttr = none ∧ routineNamedEmpty.name ≠ none := by
  decide

/-- Claim C9 (amended): `fromXML(toXML(r))` preserves the flags value and
the rule sequence (in order) for every Routine; `toXML` omits the `flags`
attribute exactly when flags is zero, omits `address` exactly when the
address list is empty, and omits `name` exactly when the name is unset
*or is the empty string*. -/
theorem C9_serialization (r : Routine) :
    (Routine.fromXML (Routine.toXML r)).flags = r.flags
    ∧ (Routine.fromXML (Routine.toXML r)).rules = r.rules
    ∧ ((Routine.toXML r).flagsAttr = none ↔ r.flags = 0)
    ∧ ((Routine.toXML r).addressAttr = none ↔ r.address = [])
    ∧ ((Routine.toXML r).nameAttr = none ↔ (r.name = none ∨ r.name = some "")) := by
  refine ⟨?_, rfl, ?_, ?_, ?_⟩
  · by_cases hf : r.flags = 0 <;>
      simp [Routine.toXML, Routine.fromXML, hf, intOfString_strOfNat]
  · by_cases hf : r.flags = 0 <;> simp [Routine.toXML, hf]
  · by_cases ha : r.address = [] <;> simp [Routine.toXML, ha]
  · cases hn : r.name with
    | none => simp [Routine.toXML, hn]
    | some s => by_cases hs : s = "" <;> simp [Routine.toXML, hn, hs]

end FeeLib
